import Mathlib

/-!
Shallow embedding of the `clipboard_commander` repository (History Store,
Clipboard Watcher, Paste Injector) and verification of the frozen claims.

Conventions of the embedding:
* Python strings are `String`; `str.strip()` is modelled by `pystrip`.
* Timestamps (`datetime.now().timestamp()`, epoch floats) are never computed
  with, only stored and compared; they are modelled as `Int` parameters.
* Fresh UUIDs (`QUuid.createUuid`) are modelled as explicit `String`
  parameters supplied by the caller.
* The filesystem contents relevant to the claims — the set of blob files in
  `APP_DIR/images` and the JSON array written to `history.json` — are carried
  in the store state (`imageFiles`, `savedRecords`); a real directory holds
  each path at most once, so `Path.unlink` is `List.filter`.
* Qt signal emissions are recorded in order in `emitted`.
-/

namespace ClipboardCommander

/-- config.py: `MAX_ITEMS = 300`. -/
def MAX_ITEMS : Nat := 300

/-- Python `str.strip()` with no argument: remove leading and trailing
whitespace characters. -/
def pystrip (s : String) : String :=
  ⟨((s.data.dropWhile Char.isWhitespace).reverse.dropWhile Char.isWhitespace).reverse⟩

/-- history.py `ClipItem` dataclass: `id`, `kind` ('text' | 'image'),
`ts` (epoch seconds), `text`, `img` (blob path when kind == 'image'). -/
structure ClipItem where
  id : String
  kind : String
  ts : Int
  text : String
  img : String
deriving DecidableEq, Repr

/-- The two Qt signals `HistoryStore` can emit. -/
inductive Sig where
  | changed
  | cleared
deriving DecidableEq, Repr

/-- One JSON object of the persisted `history.json` array.  Each field is
optional because `_load` reads every field with `d.get(key, default)`. -/
structure StoredRecord where
  id : Option String
  kind : Option String
  ts : Option Int
  text : Option String
  img : Option String
deriving DecidableEq, Repr

/-- `dataclasses.asdict` applied to a `ClipItem` (history.py line 86):
every field is present in the serialized object. -/
def asdict (i : ClipItem) : StoredRecord :=
  ⟨some i.id, some i.kind, some i.ts, some i.text, some i.img⟩

/-- The observable state owned by `HistoryStore` plus the durable artefacts
the claims are about. -/
structure StoreState where
  items : List ClipItem
  imageFiles : List String
  savedRecords : List StoredRecord
  emitted : List Sig
deriving DecidableEq, Repr

/-- history.py `_save`: serialize `self.items` into `history.json`. -/
def save (st : StoreState) : StoreState :=
  { st with savedRecords := st.items.map asdict }

/-- Record a signal emission. -/
def emit (s : Sig) (st : StoreState) : StoreState :=
  { st with emitted := st.emitted ++ [s] }

/-- history.py line 39: `self.items and self.items[0].kind == 'text' and
self.items[0].text == t`. -/
def dedupHeadText (items : List ClipItem) (t : String) : Bool :=
  match items with
  | [] => false
  | it0 :: _ => it0.kind = "text" && it0.text = t

/-- history.py line 49: `self.items and self.items[0].kind == 'image' and
self.items[0].img == path`. -/
def dedupHeadImage (items : List ClipItem) (path : String) : Bool :=
  match items with
  | [] => false
  | it0 :: _ => it0.kind = "image" && it0.img = path

/-- history.py `HistoryStore.add_text` (lines 35-44).  `id` models the fresh
UUID string and `now` the current timestamp.  `del self.items[MAX_ITEMS:]`
after the insert is `List.take MAX_ITEMS`. -/
def add_text (id : String) (now : Int) (text : String) (st : StoreState) : StoreState :=
  let t := pystrip text
  if t = "" then st
  else if dedupHeadText st.items t then st
  else
    let st := { st with items := (ClipItem.mk id "text" now t "" :: st.items).take MAX_ITEMS }
    emit Sig.changed (save st)

/-- history.py `HistoryStore.add_image_path` (lines 46-54). -/
def add_image_path (id : String) (now : Int) (path : String) (st : StoreState) : StoreState :=
  if path = "" then st
  else if dedupHeadImage st.items path then st
  else
    let st := { st with items := (ClipItem.mk id "image" now "" path :: st.items).take MAX_ITEMS }
    emit Sig.changed (save st)

/-- history.py `HistoryStore.clear` (lines 56-71): unlinks every file in the
images directory (`img_dir.glob('*')`), empties `items`, saves, emits
`cleared` then `changed`. -/
def clear (st : StoreState) : StoreState :=
  let st := { st with imageFiles := [] }
  let st := { st with items := [] }
  emit Sig.changed (emit Sig.cleared (save st))

/-- `Path(p).unlink(missing_ok=True)`: remove the path from the directory
listing (a no-op when absent). -/
def unlinkFile (p : String) (fs : List String) : List String :=
  fs.filter (fun q => q ≠ p)

/-- One iteration of the loop in `delete_indices` (history.py lines 74-81):
`if 0 <= r < len(self.items): it = self.items.pop(r); if it.kind == 'image'
and it.img: Path(it.img).unlink(missing_ok=True)`.  Rows are Python ints,
hence `Int`. -/
def deleteStep (st : StoreState) (r : Int) : StoreState :=
  if h : 0 ≤ r ∧ r.toNat < st.items.length then
    let it := st.items.get ⟨r.toNat, h.2⟩
    let st₁ := { st with items := st.items.eraseIdx r.toNat }
    if it.kind = "image" ∧ it.img ≠ "" then
      { st₁ with imageFiles := unlinkFile it.img st₁.imageFiles }
    else st₁
  else st

/-- Python `sorted(rows, reverse=True)` on integers: the (unique) descending
sort of the list. -/
def sortDesc (rows : List Int) : List Int :=
  rows.insertionSort (fun a b => a ≥ b)

/-- history.py `HistoryStore.delete_indices` (lines 73-83). -/
def delete_indices (rows : List Int) (st : StoreState) : StoreState :=
  emit Sig.changed (save ((sortDesc rows).foldl deleteStep st))

/-- history.py `_load` body, one record (lines 97-107): a record with no
`kind` key is interpreted as a Text entry (its `img` field is ignored);
otherwise every field is read with a default. -/
def loadItem (d : StoredRecord) : ClipItem :=
  match d.kind with
  | none => ClipItem.mk (d.id.getD "") "text" (d.ts.getD 0) (d.text.getD "") ""
  | some k => ClipItem.mk (d.id.getD "") k (d.ts.getD 0) (d.text.getD "") (d.img.getD "")

/-- The three ways startup loading can go: the file is absent
(history.py line 91), reading or parsing it raises (line 109), or it parses
into a list of records. -/
inductive LoadInput where
  | absent
  | malformed
  | ok (recs : List StoredRecord)

/-- history.py `HistoryStore.__init__` + `_load` (lines 29-33, 90-110): the
in-memory items after startup.  `__init__` sets `items = []`; `_load`
returns early on a missing file and replaces `items` with `[]` when any
exception is raised inside the `try` block; otherwise it rebuilds the list
in file order. -/
def load (inp : LoadInput) : List ClipItem :=
  match inp with
  | .absent => []
  | .malformed => []
  | .ok rs => rs.map loadItem

/-! ## Clipboard Watcher (watcher.py) and Paste Injector (ui.py)

The Qt clipboard is modelled by the values the watcher reads from it.  In
PySide6, `QClipboard.image()` and `QClipboard.pixmap()` return (possibly
null) `QImage`/`QPixmap` objects and never `None`, so the Python checks
`... is not None` are always true; a `QImage` is modelled by its null flag
and by the signature string `_image_signature` computes for it (an md5 of
the PNG encoding plus dimensions — opaque to every claim, hence carried as
a field).  `QTime.currentTime().msecsSinceStartOfDay()` is a `Nat`
parameter `now`. -/

/-- A `QImage` as the watcher observes it: whether it `isNull()`, and the
signature string `_image_signature` would produce for it. -/
structure QImage where
  isNull : Bool
  sig : String
deriving DecidableEq, Repr

/-- The null image (e.g. an empty clipboard's `image()`). -/
def nullImage : QImage := ⟨true, ""⟩

/-- watcher.py `_image_signature` (lines 103-114), modelled as returning the
image's signature field. -/
def image_signature (img : QImage) : String := img.sig

/-- A `QMimeData` as the watcher inspects it: `text()`/`hasText()` (the
text payload, when the text format is present), `hasImage()`, and
`hasFormat(INTERNAL_MIME)` — the self-originated marker. -/
structure MimeData where
  textData : Option String
  hasImageF : Bool
  marker : Bool
deriving DecidableEq, Repr

/-- The clipboard as observed through `clipboard().mimeData()`,
`clipboard().image()` and `clipboard().pixmap().toImage()`. -/
structure Clipboard where
  mimeData : Option MimeData
  image : QImage
  pixmap : QImage
deriving DecidableEq, Repr

/-- `self.clip.text() or ""`: the clipboard's plain text, empty when no
mime data or no text format is present. -/
def clipText (cb : Clipboard) : String :=
  match cb.mimeData with
  | none => ""
  | some md => md.textData.getD ""

/-- `md.hasFormat(INTERNAL_MIME)` guarded by `md` being present
(`if md and md.hasFormat(INTERNAL_MIME)`). -/
def hasMarker (cb : Clipboard) : Bool :=
  match cb.mimeData with
  | none => false
  | some md => md.marker

/-- The watcher's ephemeral state (watcher.py lines 21-23). -/
structure WatcherState where
  last_text : String
  last_img_sig : String
  suppress_until_ms : Nat
deriving DecidableEq, Repr

/-- The calls a watcher trigger makes into the History Store and the
filesystem, in order. -/
inductive Eff where
  | addText (s : String)
  | saveImageFile (path : String)
  | addImagePath (path : String)
deriving DecidableEq, Repr

/-- watcher.py `_is_suppressed` (lines 131-132). -/
def is_suppressed (now : Nat) (w : WatcherState) : Bool :=
  now < w.suppress_until_ms

/-- watcher.py `_sync_last_from_clipboard` (lines 116-129): resynchronize
`last_text`/`last_img_sig` to the clipboard and re-arm the suppression
deadline to `now + 1200`. -/
def sync_last_from_clipboard (cb : Clipboard) (now : Nat) (w : WatcherState) : WatcherState :=
  { last_text := clipText cb
    last_img_sig := if ¬ cb.image.isNull then image_signature cb.image else ""
    suppress_until_ms := now + 1200 }

/-- watcher.py `_capture_image` (lines 80-101).  `freshPath` models the
fresh `images/{uuid}.png` path.  The `sig` parameter is recomputed when
falsy (`if not sig`). -/
def capture_image (cb : Clipboard) (freshPath : String) (qimageArg : Option QImage)
    (sigArg : Option String) (w : WatcherState) : WatcherState × List Eff :=
  let qimage := qimageArg.getD cb.image
  let qimage := if qimage.isNull then cb.pixmap else qimage
  if qimage.isNull then (w, [])
  else
    let sig := match sigArg with
      | some s => if s = "" then image_signature qimage else s
      | none => image_signature qimage
    if sig ≠ "" ∧ sig = w.last_img_sig then (w, [])
    else
      ({ w with last_img_sig := sig },
        [Eff.saveImageFile freshPath, Eff.addImagePath freshPath])

/-- The always-true disjunction guarding the image branch of `_on_changed`
(line 49): `md.hasImage() or self.clip.image() is not None or
self.clip.pixmap() is not None` — the last two operands are always true in
PySide6 because `image()`/`pixmap()` return objects, never `None`. -/
def imageBranchCond (md : MimeData) : Bool :=
  md.hasImageF || true || true

/-- watcher.py `_on_changed` (lines 30-50): the `dataChanged` notification
path. -/
def on_changed (cb : Clipboard) (now : Nat) (freshPath : String) (w : WatcherState) :
    WatcherState × List Eff :=
  if is_suppressed now w then (sync_last_from_clipboard cb now w, [])
  else match cb.mimeData with
  | none => (w, [])
  | some md =>
    if md.marker then (w, [])
    else if md.textData.isSome then
      let txt := md.textData.getD ""
      if txt ≠ "" ∧ txt ≠ w.last_text then
        ({ w with last_text := txt }, [Eff.addText txt])
      else (w, [])
    else if imageBranchCond md then capture_image cb freshPath none none w
    else (w, [])

/-- watcher.py `_poll_image` (lines 67-78). -/
def poll_image (cb : Clipboard) (freshPath : String) (w : WatcherState) :
    WatcherState × List Eff :=
  if hasMarker cb then (w, [])
  else
    let img := cb.image
    if ¬ img.isNull then
      let sig := image_signature img
      if sig ≠ "" ∧ sig ≠ w.last_img_sig then capture_image cb freshPath (some img) (some sig) w
      else (w, [])
    else (w, [])

/-- watcher.py `_poll` (lines 52-65): the timer path. -/
def poll (cb : Clipboard) (now : Nat) (freshPath : String) (w : WatcherState) :
    WatcherState × List Eff :=
  if is_suppressed now w then (w, [])
  else if hasMarker cb then (w, [])
  else
    let txt := clipText cb
    let step1 : WatcherState × List Eff :=
      if txt ≠ "" ∧ txt ≠ w.last_text then
        ({ w with last_text := txt }, [Eff.addText txt])
      else (w, [])
    let step2 := poll_image cb freshPath step1.1
    (step2.1, step1.2 ++ step2.2)

/-- ui.py `PickerDialog._activate_current` (lines 348-367), the Paste
Injector's clipboard write: build mime data from the chosen entry (image
data when the entry is an Image whose blob file loads, text otherwise),
attach the `INTERNAL_MIME` marker, and set it as the clipboard contents.
`blobExists` models `Path(chosen.img).exists()` and `pm` the
`QPixmap(chosen.img)` load result. -/
def activate_current (chosen : ClipItem) (blobExists : Bool) (pm : QImage) : Clipboard :=
  if chosen.kind = "image" ∧ chosen.img ≠ "" ∧ blobExists then
    if ¬ pm.isNull then ⟨some ⟨none, true, true⟩, pm, pm⟩
    else ⟨some ⟨some chosen.text, false, true⟩, nullImage, nullImage⟩
  else ⟨some ⟨some chosen.text, false, true⟩, nullImage, nullImage⟩

/-- The system's reaction to a Paste Injector write: `cb.setMimeData(md)`
replaces the clipboard and Qt delivers `dataChanged` to the watcher
(watcher.py line 18).  The `pasted` signal is connected only to
`AppController._paste_into_previous` (app.py line 119), which schedules a
synthetic Cmd+V keystroke and touches no watcher state. -/
def pasteEvent (chosen : ClipItem) (blobExists : Bool) (pm : QImage) (now : Nat)
    (freshPath : String) (w : WatcherState) :
    Clipboard × WatcherState × List Eff :=
  let cb := activate_current chosen blobExists pm
  let r := on_changed cb now freshPath w
  (cb, r.1, r.2)

/-- `HistoryStore.clear` together with the watcher's reaction: the
`cleared` signal is connected to `_sync_last_from_clipboard`
(watcher.py line 19). -/
def clearEvent (st : StoreState) (cb : Clipboard) (now : Nat) (w : WatcherState) :
    StoreState × WatcherState :=
  (clear st, sync_last_from_clipboard cb now w)

/-- A store with empty history and no stored files (the state after first
startup). -/
def emptyStore : StoreState := ⟨[], [], [], []⟩

/-- Keep the elements of `l` whose position (0-based) satisfies `P`. -/
def idxFilter {α : Type} : List α → (Nat → Bool) → List α
  | [], _ => []
  | x :: xs, P =>
    if P 0 then x :: idxFilter xs (fun i => P (i + 1)) else idxFilter xs (fun i => P (i + 1))

/-- Entry A of the spec's scenario 4. -/
def itemA : ClipItem := ⟨"a", "text", 1, "A", ""⟩

/-- Entry B of the spec's scenario 4. -/
def itemB : ClipItem := ⟨"b", "text", 2, "B", ""⟩

/-- Entry C of the spec's scenario 4. -/
def itemC : ClipItem := ⟨"c", "text", 3, "C", ""⟩

/-- The 3-entry history `[A, B, C]` of the spec's scenario 4. -/
def abcStore : StoreState := ⟨[itemA, itemB, itemC], [], [], []⟩

/-- The i-th distinct text entry used to build a full history. -/
def mkTextItem (i : Nat) : ClipItem := ⟨s!"id{i}", "text", 0, s!"t{i}", ""⟩

/-- An Image entry whose blob file exists. -/
def evictImageItem : ClipItem := ⟨"idZ", "image", 0, "", "blob.png"⟩

/-- A full history (`MAX_ITEMS` entries): 299 distinct text entries and the
Image entry at the tail (the oldest), with its blob on disk.  Reachable by
`add_image_path` followed by 299 distinct `add_text` calls. -/
def evictStore : StoreState :=
  ⟨(List.range 299).map mkTextItem ++ [evictImageItem], ["blob.png"], [], []⟩

/-- A 2-entry history whose position 1 is an Image entry with its blob on
disk. -/
def c1Store : StoreState :=
  ⟨[⟨"a", "text", 1, "A", ""⟩, ⟨"b", "image", 2, "", "/img/b.png"⟩], ["/img/b.png"], [], []⟩

/-- A sequence of `add_text` calls, each a triple (fresh id, timestamp,
raw text), applied in order. -/
def runAddTexts (st : StoreState) (xs : List (String × Int × String)) : StoreState :=
  xs.foldl (fun s x => add_text x.1 x.2.1 x.2.2 s) st

/-- Invariant tying a store to the trimmed texts `ps` added so far (oldest
first): the items are the newest `MAX_ITEMS` of them, newest first, and all
of kind text. -/
def TextInv (st : StoreState) (ps : List String) : Prop :=
  st.items.map ClipItem.text = ps.reverse.take MAX_ITEMS ∧
  ∀ it ∈ st.items, it.kind = "text"

/-- The concrete two-call sequence used to witness C5. -/
def c5xs : List (String × Int × String) := [("i1", 1, "a"), ("i2", 2, "b")]

end ClipboardCommander

/-! ## Helper lemmas -/

namespace ClipboardCommander

/-- Branch normal form of `add_text`. -/
lemma add_text_eq (id : String) (now : Int) (c : String) (st : StoreState) :
    add_text id now c st =
      if pystrip c = "" then st
      else if dedupHeadText st.items (pystrip c) then st
      else emit Sig.changed (save { st with
        items := ClipItem.mk id "text" now (pystrip c) "" :: st.items.take (MAX_ITEMS - 1) }) := by
  unfold add_text
  dsimp only
  split
  · rfl
  · split
    · rfl
    · rfl

/-- Branch normal form of `add_image_path`. -/
lemma add_image_path_eq (id : String) (now : Int) (p : String) (st : StoreState) :
    add_image_path id now p st =
      if p = "" then st
      else if dedupHeadImage st.items p then st
      else emit Sig.changed (save { st with
        items := ClipItem.mk id "image" now "" p :: st.items.take (MAX_ITEMS - 1) }) := by
  unfold add_image_path
  dsimp only
  split
  · rfl
  · split
    · rfl
    · rfl

lemma add_text_imageFiles (id : String) (now : Int) (c : String) (st : StoreState) :
    (add_text id now c st).imageFiles = st.imageFiles := by
  rw [add_text_eq]
  split
  · rfl
  · split <;> rfl

lemma add_image_path_imageFiles (id : String) (now : Int) (p : String) (st : StoreState) :
    (add_image_path id now p st).imageFiles = st.imageFiles := by
  rw [add_image_path_eq]
  split
  · rfl
  · split <;> rfl

lemma loadItem_asdict (i : ClipItem) : loadItem (asdict i) = i := by
  cases i
  rfl

lemma idxFilter_congr {α : Type} :
    ∀ (l : List α) (P Q : Nat → Bool), (∀ i, i < l.length → P i = Q i) →
      idxFilter l P = idxFilter l Q := by
  intro l
  induction l with
  | nil => intro P Q _; rfl
  | cons x xs ih =>
    intro P Q h
    simp only [idxFilter]
    rw [h 0 (by simp),
      ih (fun i => P (i + 1)) (fun i => Q (i + 1)) (fun i hi => h (i + 1) (by simpa using hi))]

lemma idxFilter_of_true {α : Type} :
    ∀ (l : List α) (P : Nat → Bool), (∀ i, i < l.length → P i = true) →
      idxFilter l P = l := by
  intro l
  induction l with
  | nil => intro P _; rfl
  | cons x xs ih =>
    intro P h
    simp only [idxFilter]
    rw [h 0 (by simp), if_pos rfl,
      ih (fun i => P (i + 1)) (fun i hi => h (i + 1) (by simpa using hi))]

/-- Erasing position `r` commutes with positional filtering when the filter
discards `r`, keeps everything above `r` on the right, and agrees below
`r`. -/
lemma idxFilter_eraseIdx {α : Type} :
    ∀ (l : List α) (r : Nat) (P Q : Nat → Bool),
      (∀ j, r < j → Q j = true) → (∀ j, j < r → P j = Q j) →
      (∀ j, r ≤ j → P j = true) → Q r = false →
      idxFilter (l.eraseIdx r) P = idxFilter l Q := by
  intro l
  induction l with
  | nil => intro r P Q _ _ _ _; rfl
  | cons x xs ih =>
    intro r P Q hQh hlow hPh hQr
    cases r with
    | zero =>
      rw [List.eraseIdx_cons_zero]
      have hrhs : idxFilter (x :: xs) Q = idxFilter xs (fun i => Q (i + 1)) := by
        simp only [idxFilter, hQr]
        simp
      rw [hrhs, idxFilter_of_true xs P (fun i _ => hPh i (Nat.zero_le i)),
        idxFilter_of_true xs (fun i => Q (i + 1)) (fun i _ => hQh (i + 1) (Nat.succ_pos i))]
    | succ r₀ =>
      rw [List.eraseIdx_cons_succ]
      simp only [idxFilter]
      rw [hlow 0 (Nat.succ_pos r₀),
        ih r₀ (fun i => P (i + 1)) (fun i => Q (i + 1))
          (fun j hj => hQh (j + 1) (Nat.succ_lt_succ hj))
          (fun j hj => hlow (j + 1) (Nat.succ_lt_succ hj))
          (fun j hj => hPh (j + 1) (Nat.succ_le_succ hj)) hQr]

lemma get_congr {α : Type} {l l₂ : List α} (h : l = l₂) (i : Nat)
    (hi : i < l.length) (hi₂ : i < l₂.length) : l.get ⟨i, hi⟩ = l₂.get ⟨i, hi₂⟩ := by
  subst h
  rfl

lemma deleteStep_items (st : StoreState) (r : Int) :
    (deleteStep st r).items =
      if 0 ≤ r ∧ r.toNat < st.items.length then st.items.eraseIdx r.toNat else st.items := by
  by_cases h : 0 ≤ r ∧ r.toNat < st.items.length
  · rw [if_pos h]
    unfold deleteStep
    rw [dif_pos h]
    dsimp only
    split <;> rfl
  · rw [if_neg h]
    unfold deleteStep
    rw [dif_neg h]

lemma deleteStep_files_shrink (st : StoreState) (r : Int) (p : String)
    (hp : p ∉ st.imageFiles) : p ∉ (deleteStep st r).imageFiles := by
  unfold deleteStep
  split
  · dsimp only
    split
    · intro hmem
      exact hp (List.mem_of_mem_filter hmem)
    · exact hp
  · exact hp

lemma foldl_deleteStep_files_mono :
    ∀ (S : List Int) (st : StoreState) (p : String),
      p ∉ st.imageFiles → p ∉ (S.foldl deleteStep st).imageFiles := by
  intro S
  induction S with
  | nil => intro st p hp; exact hp
  | cons s rest ih =>
    intro st p hp
    rw [List.foldl_cons]
    exact ih (deleteStep st s) p (deleteStep_files_shrink st s p hp)

lemma sortDesc_perm (rows : List Int) : (sortDesc rows).Perm rows :=
  List.perm_insertionSort _ rows

lemma sortDesc_strictDesc (rows : List Int) (h : rows.Pairwise (fun a b => a ≠ b)) :
    (sortDesc rows).Pairwise (fun a b => a > b) := by
  have hs : (sortDesc rows).Pairwise (fun a b => a ≥ b) :=
    List.sorted_insertionSort (fun a b => a ≥ b) rows
  have hn : (sortDesc rows).Pairwise (fun a b => a ≠ b) :=
    ((sortDesc_perm rows).pairwise_iff (fun hxy => hxy.symm)).mpr h
  exact (hs.and hn).imp (fun hab => lt_of_le_of_ne hab.1 (Ne.symm hab.2))

/-- Running the delete loop over a strictly descending index list keeps
exactly the items whose (pre-call) position is not in the list. -/
lemma foldl_deleteStep_items :
    ∀ (S : List Int) (st : StoreState), S.Pairwise (fun a b => a > b) →
      (S.foldl deleteStep st).items
        = idxFilter st.items (fun i => decide ((i : Int) ∉ S)) := by
  intro S
  induction S with
  | nil =>
    intro st _
    rw [List.foldl_nil]
    exact (idxFilter_of_true _ _ (fun i _ => by simp)).symm
  | cons s rest ih =>
    intro st hp
    have hrest : ∀ y ∈ rest, s > y := fun y hy => List.rel_of_pairwise_cons hp hy
    rw [List.foldl_cons, ih _ hp.of_cons]
    have hsteps := deleteStep_items st s
    by_cases h : 0 ≤ s ∧ s.toNat < st.items.length
    · rw [hsteps, if_pos h]
      apply idxFilter_eraseIdx st.items s.toNat
      · intro j hj
        have hjs : s < (j : Int) := by omega
        simp only [decide_eq_true_eq]
        intro hmem
        rcases List.mem_cons.mp hmem with he | hm
        · omega
        · have := hrest _ hm
          omega
      · intro j hj
        have hjs : (j : Int) < s := by omega
        have hne : ¬((j : Int) = s) := by omega
        simp [List.mem_cons, hne]
      · intro j hj
        have hjs : s ≤ (j : Int) := by omega
        simp only [decide_eq_true_eq]
        intro hm
        have := hrest _ hm
        omega
      · have : ((s.toNat : Int)) = s := Int.toNat_of_nonneg h.1
        simp [this]
    · rw [hsteps, if_neg h]
      apply idxFilter_congr
      intro i hi
      have hne : ¬((i : Int) = s) := by
        rcases not_and_or.mp h with hs | hs
        · omega
        · have : st.items.length ≤ s.toNat := Nat.le_of_not_lt hs
          omega
      simp [List.mem_cons, hne]

/-- Running the delete loop over a strictly descending index list removes
the blob of every in-range image entry it pops. -/
lemma foldl_deleteStep_blob :
    ∀ (S : List Int) (st : StoreState) (r : Int), S.Pairwise (fun a b => a > b) →
      r ∈ S → 0 ≤ r → ∀ (hr : r.toNat < st.items.length),
      (st.items.get ⟨r.toNat, hr⟩).kind = "image" →
      (st.items.get ⟨r.toNat, hr⟩).img ≠ "" →
      (st.items.get ⟨r.toNat, hr⟩).img ∉ (S.foldl deleteStep st).imageFiles := by
  intro S
  induction S with
  | nil => intro st r _ hmem; exact absurd hmem (List.not_mem_nil r)
  | cons s rest ih =>
    intro st r hp hmem h0 hr hkind himg
    rw [List.foldl_cons]
    rcases List.mem_cons.mp hmem with he | hm
    · subst he
      apply foldl_deleteStep_files_mono
      unfold deleteStep
      rw [dif_pos ⟨h0, hr⟩]
      dsimp only
      rw [if_pos ⟨hkind, himg⟩]
      simp [unlinkFile]
    · have hsr : r < s := List.rel_of_pairwise_cons hp hm
      have hrest : rest.Pairwise (fun a b => a > b) := hp.of_cons
      by_cases hs : 0 ≤ s ∧ s.toNat < st.items.length
      · have hlt : r.toNat < s.toNat := by omega
        have hlen : r.toNat < (deleteStep st s).items.length := by
          rw [deleteStep_items, if_pos hs, List.length_eraseIdx]
          simp only [hs.2, if_true]
          omega
        have hlen₂ : r.toNat < (st.items.eraseIdx s.toNat).length := by
          rw [List.length_eraseIdx]
          simp only [hs.2, if_true]
          omega
        have hit : (deleteStep st s).items = st.items.eraseIdx s.toNat :=
          (deleteStep_items st s).trans (if_pos hs)
        have hget : (deleteStep st s).items.get ⟨r.toNat, hlen⟩ = st.items.get ⟨r.toNat, hr⟩ := by
          refine (get_congr hit r.toNat hlen hlen₂).trans ?_
          simp only [List.get_eq_getElem]
          exact List.getElem_eraseIdx_of_lt _ _ _ _ hlt
        have := ih (deleteStep st s) r hrest hm h0 hlen
          (by rw [hget]; exact hkind) (by rw [hget]; exact himg)
        rw [hget] at this
        exact this
      · have hstep : deleteStep st s = st := by
          unfold deleteStep
          rw [dif_neg hs]
        rw [hstep]
        exact ih st r hrest hm h0 hr hkind himg

end ClipboardCommander

/-! ## The claims -/

namespace ClipboardCommander

/-- Claim C8 (confirmed): for pairwise-distinct indices, `delete_indices`
removes exactly the entries at the given positions of the pre-call
sequence (applying indices from highest to lowest, so positions keep their
pre-call meaning), and persists exactly the surviving records; in
particular `delete([0,2])` on `[A,B,C]` yields `[B]` with exactly one
persisted record, equal to B. -/
theorem claim_C8_theorem :
    (∀ (st : StoreState) (rows : List Int), rows.Pairwise (fun a b => a ≠ b) →
      (delete_indices rows st).items
        = idxFilter st.items (fun i => decide ((i : Int) ∉ rows)) ∧
      (delete_indices rows st).savedRecords
        = (idxFilter st.items (fun i => decide ((i : Int) ∉ rows))).map asdict) ∧
    ((delete_indices [0, 2] abcStore).items = [itemB] ∧
      (delete_indices [0, 2] abcStore).savedRecords = [asdict itemB]) := by
  constructor
  · intro st rows hnd
    have hfold : ((sortDesc rows).foldl deleteStep st).items
        = idxFilter st.items (fun i => decide ((i : Int) ∉ rows)) := by
      rw [foldl_deleteStep_items (sortDesc rows) st (sortDesc_strictDesc rows hnd)]
      apply idxFilter_congr
      intro i _
      simp [(sortDesc_perm rows).mem_iff]
    constructor
    · show ((sortDesc rows).foldl deleteStep st).items = _
      exact hfold
    · show ((sortDesc rows).foldl deleteStep st).items.map asdict = _
      rw [hfold]
  · constructor <;> decide

/-- Witness for C8 at the spec's scenario 4: `delete([0,2])` on the
3-entry history `[A,B,C]` keeps exactly position 1 in memory and in the
persisted file. -/
theorem claim_C8_witness :
    (delete_indices [0, 2] abcStore).items
      = idxFilter abcStore.items (fun i => decide ((i : Int) ∉ ([0, 2] : List Int))) ∧
    (delete_indices [0, 2] abcStore).savedRecords
      = (idxFilter abcStore.items (fun i => decide ((i : Int) ∉ ([0, 2] : List Int)))).map asdict :=
  claim_C8_theorem.1 abcStore [0, 2] (by decide)

set_option maxRecDepth 4096 in
/-- Claim C1, counterexample: tail eviction does *not* delete the evicted
Image entry's blob.  On a full history whose oldest entry is an Image with
blob "blob.png", one more `add_text` evicts that entry (it leaves the
sequence, length stays `MAX_ITEMS`) yet "blob.png" is still in the images
directory. -/
theorem claim_C1_counterexample :
    evictStore.items.length = MAX_ITEMS ∧
    evictImageItem ∈ evictStore.items ∧
    evictImageItem ∉ (add_text "idNew" 9 "fresh" evictStore).items ∧
    (add_text "idNew" 9 "fresh" evictStore).items.length = MAX_ITEMS ∧
    evictImageItem.img ∈ (add_text "idNew" 9 "fresh" evictStore).imageFiles := by
  have hmaplen : ((List.range 299).map mkTextItem).length = 299 := by simp
  have hlen0 : evictStore.items.length = MAX_ITEMS := by
    show ((List.range 299).map mkTextItem ++ [evictImageItem]).length = MAX_ITEMS
    rw [List.length_append, hmaplen]
    rfl
  have hkinds : ∀ it ∈ (List.range 299).map mkTextItem, it.kind = "text" := by
    intro it hit
    rcases List.mem_map.mp hit with ⟨i, _, he⟩
    rw [← he]
    rfl
  have hdedup : dedupHeadText evictStore.items (pystrip "fresh") = false := by
    have h299 : List.range 299 = 0 :: (List.range 298).map Nat.succ :=
      List.range_succ_eq_map 298
    show dedupHeadText ((List.range 299).map mkTextItem ++ [evictImageItem])
      (pystrip "fresh") = false
    rw [h299]
    simp only [List.map_cons, List.cons_append, dedupHeadText]
    decide
  have hitems : (add_text "idNew" 9 "fresh" evictStore).items
      = ClipItem.mk "idNew" "text" 9 (pystrip "fresh") "" :: (List.range 299).map mkTextItem := by
    have htake : evictStore.items.take (MAX_ITEMS - 1) = (List.range 299).map mkTextItem := by
      show ((List.range 299).map mkTextItem ++ [evictImageItem]).take (MAX_ITEMS - 1)
        = (List.range 299).map mkTextItem
      rw [show MAX_ITEMS - 1 = ((List.range 299).map mkTextItem).length from by rw [hmaplen]; rfl]
      exact List.take_left _ _
    rw [add_text_eq, if_neg (by decide), if_neg (by simp [hdedup])]
    show ClipItem.mk "idNew" "text" 9 (pystrip "fresh") ""
        :: evictStore.items.take (MAX_ITEMS - 1) = _
    rw [htake]
  refine ⟨hlen0, ?_, ?_, ?_, ?_⟩
  · exact List.mem_append_right _ (by simp)
  · rw [hitems]
    intro hmem
    rcases List.mem_cons.mp hmem with he | hm
    · exact absurd (congrArg ClipItem.kind he) (by decide)
    · exact absurd (hkinds _ hm) (by decide)
  · rw [hitems, List.length_cons, hmaplen]
    rfl
  · rw [add_text_imageFiles]
    show "blob.png" ∈ ["blob.png"]
    simp

/-- Claim C1 (corrected): `add_text`/`add_image_path` never touch the
images directory, so tail eviction leaves the evicted Image entry's blob
file orphaned on disk (until the next `clear`); `clear()` removes every
blob file; and `delete_indices` does unlink the blob of each in-range
Image entry it removes. -/
theorem claim_C1_theorem :
    (∀ (id : String) (now : Int) (c : String) (st : StoreState),
      (add_text id now c st).imageFiles = st.imageFiles) ∧
    (∀ (id : String) (now : Int) (p : String) (st : StoreState),
      (add_image_path id now p st).imageFiles = st.imageFiles) ∧
    (∀ st : StoreState, (clear st).imageFiles = []) ∧
    (∀ (st : StoreState) (rows : List Int) (r : Int), rows.Pairwise (fun a b => a ≠ b) →
      r ∈ rows → 0 ≤ r → ∀ (hr : r.toNat < st.items.length),
      (st.items.get ⟨r.toNat, hr⟩).kind = "image" →
      (st.items.get ⟨r.toNat, hr⟩).img ≠ "" →
      (st.items.get ⟨r.toNat, hr⟩).img ∉ (delete_indices rows st).imageFiles) := by
  refine ⟨add_text_imageFiles, add_image_path_imageFiles, fun st => rfl, ?_⟩
  intro st rows r hnd hmem h0 hr hkind himg
  show _ ∉ ((sortDesc rows).foldl deleteStep st).imageFiles
  exact foldl_deleteStep_blob (sortDesc rows) st r (sortDesc_strictDesc rows hnd)
    ((sortDesc_perm rows).mem_iff.mpr hmem) h0 hr hkind himg

/-- Witness for C1 at concrete inputs: an `add_text` leaves the images
directory untouched, `clear` empties it, and `delete([1])` removes the
deleted Image entry's blob. -/
theorem claim_C1_witness :
    (add_text "x" 3 "hello" c1Store).imageFiles = c1Store.imageFiles ∧
    (clear c1Store).imageFiles = [] ∧
    (c1Store.items.get ⟨(1 : Int).toNat, by decide⟩).img
      ∉ (delete_indices [1] c1Store).imageFiles :=
  ⟨claim_C1_theorem.1 "x" 3 "hello" c1Store,
   claim_C1_theorem.2.2.1 c1Store,
   claim_C1_theorem.2.2.2 c1Store [1] 1 (by decide) (by decide) (by decide)
     (by decide) (by decide) (by decide)⟩

/-- Claim C7 (confirmed): `save` then `load` reproduces an identical ordered
list of entries — mapping `loadItem` over the serialized records
(`items.map asdict`, exactly what `_save` writes and a well-formed `_load`
reads back) returns the original list, field for field and in order — and a
persisted record whose `kind` field is missing loads as a Text entry. -/
theorem claim_C7_theorem :
    (∀ items : List ClipItem, (items.map asdict).map loadItem = items) ∧
    (∀ d : StoredRecord, d.kind = none → (loadItem d).kind = "text") := by
  constructor
  · intro items
    induction items with
    | nil => rfl
    | cons it rest ih => simp [loadItem_asdict, ih]
  · intro d h
    simp [loadItem, h]

/-- Witness for C7 at the spec's scenario 5: the single record
`{id:"x", kind:"text", text:"hi", ts:100}` reloads to an identical entry,
and a record missing `kind` (even one carrying an `img` path) loads as
Text. -/
theorem claim_C7_witness :
    ((([⟨"x", "text", 100, "hi", ""⟩] : List ClipItem).map asdict).map loadItem
        = [⟨"x", "text", 100, "hi", ""⟩]) ∧
    (loadItem ⟨some "y", none, some 7, some "legacy", some "stray.png"⟩).kind = "text" :=
  ⟨claim_C7_theorem.1 _, claim_C7_theorem.2 _ rfl⟩

/-- Claim C9 (confirmed): startup loading is total by construction (every
branch of `_load`, including the exception handler, produces a value): an
absent file and a malformed/unparsable file both yield an empty in-memory
history, and a parsed file yields exactly its records. -/
theorem claim_C9_theorem :
    load LoadInput.absent = [] ∧ load LoadInput.malformed = [] ∧
    ∀ rs, load (LoadInput.ok rs) = rs.map loadItem :=
  ⟨rfl, rfl, fun _ => rfl⟩

/-- Claim C6, counterexample: the claim "add(c) followed immediately by
add(c) again leaves the history with exactly one entry for c" fails for
histories that already hold c deeper in the list: from an empty store,
`add_text "a"; add_text "b"; add_text "a"; add_text "a"` is an immediate
`add(a); add(a)` pair after which the history holds two entries with text
"a" (head dedup is adjacent-only). -/
theorem claim_C6_counterexample :
    ((add_text "i4" 4 "a" (add_text "i3" 3 "a"
        (add_text "i2" 2 "b" (add_text "i1" 1 "a" emptyStore)))).items.countP
      (fun it => it.kind = "text" && it.text = "a")) = 2 ∧ (2 : Nat) ≠ 1 := by decide

/-- Claim C6 (corrected): the second identical `add` is a complete no-op
(`add(c); add(c) = add(c)` as states, for `add_text` and symmetrically for
`add_image_path` against an Image head), empty/whitespace-only text input
is a no-op, and from an *empty* history `add(c); add(c)` leaves exactly one
entry for c; a history that already holds c in a non-head position keeps
its older duplicate. -/
theorem claim_C6_theorem :
    (∀ (st : StoreState) (i₁ i₂ : String) (n₁ n₂ : Int) (c : String),
      add_text i₂ n₂ c (add_text i₁ n₁ c st) = add_text i₁ n₁ c st) ∧
    (∀ (st : StoreState) (i : String) (n : Int) (c : String),
      pystrip c = "" → add_text i n c st = st) ∧
    (∀ (st : StoreState) (i₁ i₂ : String) (n₁ n₂ : Int) (p : String),
      add_image_path i₂ n₂ p (add_image_path i₁ n₁ p st) = add_image_path i₁ n₁ p st) ∧
    (∀ (i₁ i₂ : String) (n₁ n₂ : Int) (c : String), pystrip c ≠ "" →
      ((add_text i₂ n₂ c (add_text i₁ n₁ c emptyStore)).items.countP
        (fun it => it.kind = "text" && it.text = pystrip c)) = 1) := by
  refine ⟨?_, ?_, ?_, ?_⟩
  · intro st i₁ i₂ n₁ n₂ c
    rw [add_text_eq i₁ n₁ c st]
    by_cases h0 : pystrip c = ""
    · rw [if_pos h0, add_text_eq, if_pos h0]
    · rw [if_neg h0]
      by_cases hd : dedupHeadText st.items (pystrip c) = true
      · rw [if_pos hd, add_text_eq, if_neg h0, if_pos hd]
      · rw [if_neg hd, add_text_eq, if_neg h0, if_pos]
        simp [emit, save, dedupHeadText]
  · intro st i n c h
    rw [add_text_eq, if_pos h]
  · intro st i₁ i₂ n₁ n₂ p
    rw [add_image_path_eq i₁ n₁ p st]
    by_cases h0 : p = ""
    · rw [if_pos h0, add_image_path_eq, if_pos h0]
    · rw [if_neg h0]
      by_cases hd : dedupHeadImage st.items p = true
      · rw [if_pos hd, add_image_path_eq, if_neg h0, if_pos hd]
      · rw [if_neg hd, add_image_path_eq, if_neg h0, if_pos]
        simp [emit, save, dedupHeadImage]
  · intro i₁ i₂ n₁ n₂ c h0
    rw [add_text_eq i₂, add_text_eq i₁]
    simp only [emptyStore, if_neg h0, dedupHeadText, Bool.false_eq_true, if_false]
    rw [if_pos]
    · simp [emit, save, List.countP_cons]
    · simp [emit, save, dedupHeadText]

/-- Witness for C6 at concrete inputs: a repeated `add_text "hello"` pair
is a no-op, whitespace-only input is a no-op, a repeated
`add_image_path "/p.png"` pair is a no-op, and the repeated pair from an
empty store leaves exactly one "hello" entry. -/
theorem claim_C6_witness :
    (add_text "i2" 2 "hello" (add_text "i1" 1 "hello" emptyStore)
      = add_text "i1" 1 "hello" emptyStore) ∧
    (add_text "i3" 3 "  " emptyStore = emptyStore) ∧
    (add_image_path "i5" 5 "/p.png" (add_image_path "i4" 4 "/p.png" emptyStore)
      = add_image_path "i4" 4 "/p.png" emptyStore) ∧
    ((add_text "i7" 7 "hello" (add_text "i6" 6 "hello" emptyStore)).items.countP
      (fun it => it.kind = "text" && it.text = pystrip "hello")) = 1 :=
  ⟨claim_C6_theorem.1 emptyStore "i1" "i2" 1 2 "hello",
   claim_C6_theorem.2.1 emptyStore "i3" 3 "  " (by decide),
   claim_C6_theorem.2.2.1 emptyStore "i4" "i5" 4 5 "/p.png",
   claim_C6_theorem.2.2.2 "i6" "i7" 6 7 "hello" (by decide)⟩

/-- Claim C10 (confirmed): `clear()` empties the images directory (every
file in it, referenced or orphaned), empties the sequence, persists the
empty sequence, and emits `cleared` then `changed`. -/
theorem claim_C10_theorem :
    ∀ st : StoreState, (clear st).items = [] ∧ (clear st).imageFiles = [] ∧
      (clear st).savedRecords = [] ∧
      (clear st).emitted = st.emitted ++ [Sig.cleared, Sig.changed] := by
  intro st
  refine ⟨rfl, rfl, rfl, ?_⟩
  simp [clear, emit, save]

/-- Claim C2, counterexample: the Paste Injector's clipboard write does
carry the self-originated marker, but it does not set the Watcher's
`suppressed_until` deadline: pasting the text entry "hello" at
`now = 5000` with the watcher's deadline at 0 leaves the deadline at 0,
not `5000 + 1200` (no code path connects `pasted` to
`_sync_last_from_clipboard`; only the `cleared` signal is). -/
theorem claim_C2_counterexample :
    hasMarker (pasteEvent ⟨"id1", "text", 0, "hello", ""⟩ false nullImage
      5000 "p.png" ⟨"", "", 0⟩).1 = true ∧
    (pasteEvent ⟨"id1", "text", 0, "hello", ""⟩ false nullImage
      5000 "p.png" ⟨"", "", 0⟩).2.1.suppress_until_ms = 0 ∧
    (0 : Nat) ≠ 5000 + 1200 := by decide

/-- Claim C2 (corrected): (a) every Paste Injector write carries the
self-originated marker, but only `clear()` — which performs no clipboard
write — arms `suppressed_until = now + 1200`, via its `cleared` signal;
the paste write does not touch the deadline.  Consequently (b) a
marker-carrying clipboard state produces no History Store call on either
trigger path, and (c) once not suppressed, a genuinely new user copy
(no marker, fresh non-empty text) is still captured by both paths. -/
theorem claim_C2_theorem :
    (∀ (chosen : ClipItem) (b : Bool) (pm : QImage),
      hasMarker (activate_current chosen b pm) = true) ∧
    (∀ (st : StoreState) (cb : Clipboard) (now : Nat) (w : WatcherState),
      ((clearEvent st cb now w).2).suppress_until_ms = now + 1200) ∧
    (∀ (cb : Clipboard) (now : Nat) (fp : String) (w : WatcherState),
      hasMarker cb = true →
        (on_changed cb now fp w).2 = [] ∧ (poll cb now fp w).2 = []) ∧
    (∀ (cb : Clipboard) (now : Nat) (fp : String) (w : WatcherState) (md : MimeData) (t : String),
      is_suppressed now w = false → cb.mimeData = some md → md.marker = false →
      md.textData = some t → t ≠ "" → t ≠ w.last_text →
        (on_changed cb now fp w).2 = [Eff.addText t] ∧
        Eff.addText t ∈ (poll cb now fp w).2) := by
  refine ⟨?_, ?_, ?_, ?_⟩
  · intro chosen b pm
    unfold activate_current
    split
    · split <;> rfl
    · rfl
  · intro st cb now w
    rfl
  · intro cb now fp w h
    cases hcb : cb.mimeData with
    | none => simp [hasMarker, hcb] at h
    | some md =>
      have hm : md.marker = true := by simpa [hasMarker, hcb] using h
      constructor
      · unfold on_changed
        split
        · rfl
        · rw [hcb]; simp [hm]
      · unfold poll
        split
        · rfl
        · simp [hasMarker, hcb, hm]
  · intro cb now fp w md t hsup hcb hm htd ht0 htl
    constructor
    · unfold on_changed
      rw [hsup, hcb]
      simp [hm, htd, ht0, htl]
    · unfold poll
      rw [hsup]
      have hmk : hasMarker cb = false := by simp [hasMarker, hcb, hm]
      rw [hmk]
      have htxt : clipText cb = t := by simp [clipText, hcb, htd]
      simp [htxt, ht0, htl]

/-- Witness for C2 at concrete inputs: pasting a text entry yields a
marker-carrying clipboard; a `clear` at `now = 100` arms the deadline to
1300; a marker-carrying clipboard produces no store call on either path;
and a fresh unmarked copy "new" is captured by the notification path and
the poll path. -/
theorem claim_C2_witness :
    hasMarker (activate_current ⟨"id1", "text", 0, "hello", ""⟩ false nullImage) = true ∧
    ((clearEvent emptyStore ⟨none, nullImage, nullImage⟩ 100 ⟨"", "", 0⟩).2).suppress_until_ms
      = 100 + 1200 ∧
    ((on_changed ⟨some ⟨some "x", false, true⟩, nullImage, nullImage⟩ 50 "p" ⟨"", "", 0⟩).2 = []
      ∧ (poll ⟨some ⟨some "x", false, true⟩, nullImage, nullImage⟩ 50 "p" ⟨"", "", 0⟩).2 = []) ∧
    ((on_changed ⟨some ⟨some "new", false, false⟩, nullImage, nullImage⟩ 50 "p" ⟨"", "", 0⟩).2
        = [Eff.addText "new"]
      ∧ Eff.addText "new" ∈
        (poll ⟨some ⟨some "new", false, false⟩, nullImage, nullImage⟩ 50 "p" ⟨"", "", 0⟩).2) :=
  ⟨claim_C2_theorem.1 _ false nullImage,
   claim_C2_theorem.2.1 emptyStore _ 100 ⟨"", "", 0⟩,
   claim_C2_theorem.2.2.1 _ 50 "p" ⟨"", "", 0⟩ (by decide),
   claim_C2_theorem.2.2.2 _ 50 "p" ⟨"", "", 0⟩ ⟨some "new", false, false⟩ "new"
     (by decide) rfl rfl rfl (by decide) (by decide)⟩

/-- Claim C3, counterexample: the two detection paths are not equivalent.
With clipboard content carrying both text "T" and a (new) image of
signature "S", and a fresh non-suppressed watcher, the notification path
commits only the text (`elif` skips the image branch when text is
present), while the poll path commits the text and also captures the
image, additionally updating `last_img_sig`. -/
theorem claim_C3_counterexample :
    on_changed ⟨some ⟨some "T", true, false⟩, ⟨false, "S"⟩, nullImage⟩ 100 "p.png" ⟨"", "", 0⟩ ≠
    poll ⟨some ⟨some "T", true, false⟩, ⟨false, "S"⟩, nullImage⟩ 100 "p.png" ⟨"", "", 0⟩ := by
  decide

/-- Claim C3 (corrected): the OS-notification trigger and the poll trigger
produce identical outcomes (same store calls, same `last_text` /
`last_img_sig` updates) when the watcher is not suppressed, the content is
unmarked, and the clipboard holds at most one kind of content: text with a
null image, an image (non-empty signature) with no text, or neither.  When
both kinds are present the paths diverge (see the counterexample): the
poll additionally captures the image. -/
theorem claim_C3_theorem :
    ∀ (cb : Clipboard) (now : Nat) (fp : String) (w : WatcherState) (md : MimeData),
      is_suppressed now w = false → cb.mimeData = some md → md.marker = false →
      ((md.textData.isSome ∧ cb.image.isNull = true) ∨
       (md.textData = none ∧ cb.image.isNull = false ∧ image_signature cb.image ≠ "") ∨
       (md.textData = none ∧ cb.image.isNull = true ∧ cb.pixmap.isNull = true)) →
      on_changed cb now fp w = poll cb now fp w := by
  intro cb now fp w md hsup hcb hm hcase
  have hmk : hasMarker cb = false := by simp [hasMarker, hcb, hm]
  rcases hcase with ⟨hts, himg⟩ | ⟨htn, himg, hsig⟩ | ⟨htn, himg, hpix⟩
  · obtain ⟨t, htd⟩ := Option.isSome_iff_exists.mp hts
    have htxt : clipText cb = t := by simp [clipText, hcb, htd]
    unfold on_changed poll poll_image
    rw [hsup, hcb, hmk, htxt]
    simp [hm, htd, himg]
  · have htxt : clipText cb = "" := by simp [clipText, hcb, htn]
    unfold on_changed poll poll_image capture_image
    rw [hsup, hcb, hmk, htxt]
    by_cases hlast : image_signature cb.image = w.last_img_sig
    · rw [hlast] at hsig
      simp [hm, htn, imageBranchCond, himg, hlast, hsig]
    · simp [hm, htn, imageBranchCond, himg, hsig, hlast]
  · have htxt : clipText cb = "" := by simp [clipText, hcb, htn]
    unfold on_changed poll poll_image capture_image
    rw [hsup, hcb, hmk, htxt]
    simp [hm, htn, imageBranchCond, himg, hpix]

/-- Witness for C3 at a concrete image-only clipboard: both trigger paths
capture the fresh image of signature "S" with the same state update and
the same store calls. -/
theorem claim_C3_witness :
    on_changed ⟨some ⟨none, true, false⟩, ⟨false, "S"⟩, nullImage⟩ 100 "p.png" ⟨"", "", 0⟩ =
    poll ⟨some ⟨none, true, false⟩, ⟨false, "S"⟩, nullImage⟩ 100 "p.png" ⟨"", "", 0⟩ :=
  claim_C3_theorem _ 100 "p.png" ⟨"", "", 0⟩ ⟨none, true, false⟩ (by decide) rfl rfl
    (Or.inr (Or.inl ⟨rfl, by decide, by decide⟩))

/-- Claim C4, counterexample: on a suppressed *poll* trigger, no store
mutation occurs but `last_text`/`last_img_sig` are *not* resynchronized:
with clipboard text "newtext" and `last_text = "old"` under suppression
(`now = 500 < 10000`), the poll returns with `last_text` still "old"
(so the suppressed content can still be captured by a later poll once
suppression expires, contrary to the claim). -/
theorem claim_C4_counterexample :
    is_suppressed 500 ⟨"old", "", 10000⟩ = true ∧
    (poll ⟨some ⟨some "newtext", false, false⟩, nullImage, nullImage⟩
        500 "p" ⟨"old", "", 10000⟩).2 = [] ∧
    (poll ⟨some ⟨some "newtext", false, false⟩, nullImage, nullImage⟩
        500 "p" ⟨"old", "", 10000⟩).1.last_text = "old" ∧
    clipText ⟨some ⟨some "newtext", false, false⟩, nullImage, nullImage⟩ = "newtext" ∧
    ("old" : String) ≠ "newtext" := by decide

/-- Claim C4 (corrected): on any trigger under suppression or with the
marker present, no History Store call is made; but resynchronization of
`last_text`/`last_img_sig` happens only on the *notification* path and
only in the time-window case (where it also re-arms the deadline to
`now + 1200`); the suppressed poll path and the marker-only paths return
with the watcher state unchanged. -/
theorem claim_C4_theorem :
    ∀ (cb : Clipboard) (now : Nat) (fp : String) (w : WatcherState),
      (is_suppressed now w = true →
        on_changed cb now fp w = (sync_last_from_clipboard cb now w, []) ∧
        poll cb now fp w = (w, [])) ∧
      (is_suppressed now w = false → hasMarker cb = true →
        on_changed cb now fp w = (w, []) ∧ poll cb now fp w = (w, [])) := by
  intro cb now fp w
  constructor
  · intro hsup
    constructor
    · unfold on_changed; rw [hsup]; simp
    · unfold poll; rw [hsup]; simp
  · intro hsup hmk
    cases hcb : cb.mimeData with
    | none => simp [hasMarker, hcb] at hmk
    | some md =>
      have hm : md.marker = true := by simpa [hasMarker, hcb] using hmk
      constructor
      · unfold on_changed; rw [hsup, hcb]; simp [hm]
      · unfold poll; rw [hsup, hmk]; simp

lemma take_MAX_ITEMS_cons {α : Type} (a : α) (l : List α) :
    (a :: l).take MAX_ITEMS = a :: l.take (MAX_ITEMS - 1) := rfl

lemma add_text_inv (st : StoreState) (ps : List String) (id : String) (now : Int) (c : String)
    (hInv : TextInv st ps) (ht : pystrip c ≠ "") (hfresh : pystrip c ∉ ps) :
    TextInv (add_text id now c st) (ps ++ [pystrip c]) := by
  obtain ⟨htext, hkind⟩ := hInv
  have hd : dedupHeadText st.items (pystrip c) = false := by
    cases hit : st.items with
    | nil => rfl
    | cons it0 rest =>
      have h1 : it0.text ∈ st.items.map ClipItem.text := by rw [hit]; simp
      rw [htext] at h1
      have h2 : it0.text ∈ ps := List.mem_reverse.mp (List.take_subset _ _ h1)
      have hne : it0.text ≠ pystrip c := fun he => hfresh (he ▸ h2)
      simp [dedupHeadText, hne]
  rw [add_text_eq, if_neg ht, if_neg (by simp [hd])]
  constructor
  · show (ClipItem.mk id "text" now (pystrip c) "" :: st.items.take (MAX_ITEMS - 1)).map
        ClipItem.text = (ps ++ [pystrip c]).reverse.take MAX_ITEMS
    rw [List.reverse_append]
    show pystrip c :: (st.items.take (MAX_ITEMS - 1)).map ClipItem.text
        = ([pystrip c] ++ ps.reverse).take MAX_ITEMS
    rw [List.map_take, htext, List.take_take]
    have hmin : (MAX_ITEMS - 1) ⊓ MAX_ITEMS = MAX_ITEMS - 1 :=
      Nat.min_eq_left (Nat.sub_le _ _)
    rw [hmin]
    rfl
  · intro it hit
    rcases List.mem_cons.mp hit with h | h
    · rw [h]
    · exact hkind it (List.mem_of_mem_take h)

lemma runAddTexts_inv :
    ∀ (xs : List (String × Int × String)) (st : StoreState) (ps : List String),
      TextInv st ps →
      (ps ++ xs.map (fun x => pystrip x.2.2)).Pairwise (fun a b => a ≠ b) →
      (∀ x ∈ xs, pystrip x.2.2 ≠ "") →
      TextInv (runAddTexts st xs) (ps ++ xs.map (fun x => pystrip x.2.2)) := by
  intro xs
  induction xs with
  | nil => intro st ps h _ _; simpa using h
  | cons x rest ih =>
    intro st ps hInv hpw hne
    have ht : pystrip x.2.2 ≠ "" := hne x (by simp)
    have hfresh : pystrip x.2.2 ∉ ps := by
      intro hmem
      exact (List.pairwise_append.mp hpw).2.2 _ hmem (pystrip x.2.2) (by simp) rfl
    have step := add_text_inv st ps x.1 x.2.1 x.2.2 hInv ht hfresh
    have hrun : runAddTexts st (x :: rest) = runAddTexts (add_text x.1 x.2.1 x.2.2 st) rest := rfl
    rw [hrun]
    have hres := ih (add_text x.1 x.2.1 x.2.2 st) (ps ++ [pystrip x.2.2]) step
      (by simpa [List.append_assoc] using hpw)
      (fun y hy => hne y (List.mem_cons_of_mem x hy))
    simpa [List.append_assoc] using hres

/-- Claim C5, counterexample: for the two add calls with contents "a" then
"a " — pairwise-distinct and non-empty as strings — the final history
length is 1, not `min 2 MAX_ITEMS = 2`: `add_text` trims whitespace before
the head comparison, so "a " collapses onto the head "a". -/
theorem claim_C5_counterexample :
    ("a" : String) ≠ "a " ∧ ("a" : String) ≠ "" ∧ ("a " : String) ≠ "" ∧
    min 2 MAX_ITEMS = 2 ∧
    (runAddTexts emptyStore [("i1", 1, "a"), ("i2", 2, "a ")]).items.length = 1 ∧
    (1 : Nat) ≠ 2 := by decide

/-- Claim C5 (corrected): for every sequence of N `add_text` calls whose
*whitespace-trimmed* contents are pairwise-distinct and non-empty, starting
from an empty history, the final length is `min N MAX_ITEMS`
(`MAX_ITEMS = 300`), the retained entries are exactly the most recent
`MAX_ITEMS` trimmed contents in newest-first order, and
`length ≤ MAX_ITEMS` holds after every prefix of the sequence. -/
theorem claim_C5_theorem :
    ∀ xs : List (String × Int × String),
      (xs.map (fun x => pystrip x.2.2)).Pairwise (fun a b => a ≠ b) →
      (∀ x ∈ xs, pystrip x.2.2 ≠ "") →
      (runAddTexts emptyStore xs).items.length = min xs.length MAX_ITEMS ∧
      (runAddTexts emptyStore xs).items.map ClipItem.text
        = ((xs.map (fun x => pystrip x.2.2)).reverse).take MAX_ITEMS ∧
      (∀ k, (runAddTexts emptyStore (xs.take k)).items.length ≤ MAX_ITEMS) := by
  intro xs hpw hne
  have base : TextInv emptyStore [] := ⟨rfl, by simp [emptyStore]⟩
  have main := runAddTexts_inv xs emptyStore [] base (by simpa using hpw) hne
  rw [List.nil_append] at main
  obtain ⟨htext, hkind⟩ := main
  refine ⟨?_, htext, ?_⟩
  · have hlen := congrArg List.length htext
    rw [List.length_map, List.length_take, List.length_reverse, List.length_map] at hlen
    rw [hlen]
    exact Nat.min_comm _ _
  · intro k
    have hk := runAddTexts_inv (xs.take k) emptyStore [] base
      (by
        simp only [List.nil_append]
        exact List.Pairwise.sublist ((List.take_sublist k xs).map _) hpw)
      (fun y hy => hne y (List.take_subset _ _ hy))
    rw [List.nil_append] at hk
    have hlen := congrArg List.length hk.1
    rw [List.length_map, List.length_take] at hlen
    rw [hlen]
    exact Nat.min_le_left _ _

/-- Witness for C5 at the concrete sequence adding "a" then "b": length
`2 = min 2 300`, texts `["b", "a"]` newest-first, and the bound holds at
the prefix of length 1. -/
theorem claim_C5_witness :
    (runAddTexts emptyStore c5xs).items.length = min c5xs.length MAX_ITEMS ∧
    (runAddTexts emptyStore c5xs).items.map ClipItem.text
      = ((c5xs.map (fun x => pystrip x.2.2)).reverse).take MAX_ITEMS ∧
    (runAddTexts emptyStore (c5xs.take 1)).items.length ≤ MAX_ITEMS :=
  ⟨(claim_C5_theorem c5xs (by decide) (by decide)).1,
   (claim_C5_theorem c5xs (by decide) (by decide)).2.1,
   (claim_C5_theorem c5xs (by decide) (by decide)).2.2 1⟩

/-- Witness for C4 at concrete inputs: under suppression (`500 < 10000`)
the notification resynchronizes to the clipboard ("newtext") while the
poll leaves state unchanged; with the marker present and no suppression
both paths leave state unchanged and make no store call. -/
theorem claim_C4_witness :
    (on_changed ⟨some ⟨some "newtext", false, false⟩, nullImage, nullImage⟩
        500 "p" ⟨"old", "", 10000⟩ =
      (sync_last_from_clipboard ⟨some ⟨some "newtext", false, false⟩, nullImage, nullImage⟩
        500 ⟨"old", "", 10000⟩, []) ∧
      poll ⟨some ⟨some "newtext", false, false⟩, nullImage, nullImage⟩
        500 "p" ⟨"old", "", 10000⟩ = (⟨"old", "", 10000⟩, [])) ∧
    (on_changed ⟨some ⟨some "x", false, true⟩, nullImage, nullImage⟩
        50 "p" ⟨"old", "", 0⟩ = (⟨"old", "", 0⟩, []) ∧
      poll ⟨some ⟨some "x", false, true⟩, nullImage, nullImage⟩
        50 "p" ⟨"old", "", 0⟩ = (⟨"old", "", 0⟩, [])) :=
  ⟨(claim_C4_theorem _ 500 "p" ⟨"old", "", 10000⟩).1 (by decide),
   (claim_C4_theorem _ 50 "p" ⟨"old", "", 0⟩).2 (by decide) (by decide)⟩

end ClipboardCommander
